import Mathlib

/-!
Shallow embedding of the inventory reconciliation engine of `src/main.py`
(a small warehouse/stock application: class `Item`, class `Inventory` with
`add_item`, `edit_item`, `reduce_stock_by_barcode`, `import_invoice_xml`,
and the JSON save/load round trip).

Modelling conventions:
* Python `float` money/margin values are modelled as `ℚ` (exact arithmetic);
  Python `int` quantities as `ℤ`.
* Python `round(x, 2)` is modelled by `round2` below, rounding to the nearest
  multiple of 1/100 (Mathlib's `round`, half up).  Python rounds the binary
  float half-to-even; the two agree on every value appearing here (no tie is
  exercised).
* Mutation of the `self.items` list is modelled by returning the updated list;
  `self.save()` (a full-snapshot write) is modelled by the returned list
  itself, and the JSON file by `List ItemDict`.
* Python truthiness of an optional string (`if barcode:`) is `bcTruthy`;
  truthiness of a float (`if purchase_price:`) is `≠ 0`.
-/

namespace Magazyn

/-- `round(x, 2)` of `main.py` (sale-price rounding), over `ℚ`. -/
def round2 (q : ℚ) : ℚ := ((round (q * 100) : ℤ) : ℚ) / 100

/-- `config['margin']` default from `default_config` in `main.py`: `0.30`. -/
def DEFAULT_MARGIN : ℚ := 3 / 10

/-- Mirrors class `Item` of `main.py`: fields `name`, `category`, `quantity`,
`purchase_price`, `margin`, `sale_price`, `barcode`. -/
structure Item where
  name : String
  category : String
  quantity : Int
  purchase_price : ℚ
  margin : ℚ
  sale_price : ℚ
  barcode : Option String
deriving Repr, DecidableEq

/-- `Item.__init__`: if `sale_price` is provided it is used verbatim, else it
is computed as `round(purchase_price * (1 + margin), 2)`. -/
def mkItem (name : String) (category : String) (quantity : Int)
    (purchase_price : ℚ) (sale_price : Option ℚ) (margin : ℚ)
    (barcode : Option String) : Item :=
  { name := name
    category := category
    quantity := quantity
    purchase_price := purchase_price
    margin := margin
    sale_price :=
      match sale_price with
      | some sp => sp
      | none => round2 (purchase_price * (1 + margin))
    barcode := barcode }

/-- One element of the `inventory.json` snapshot, mirroring `Item.to_dict`. -/
structure ItemDict where
  name : String
  category : String
  quantity : Int
  purchase_price : ℚ
  sale_price : ℚ
  margin : ℚ
  barcode : Option String
deriving Repr, DecidableEq

/-- `Item.to_dict` of `main.py`. -/
def Item.to_dict (it : Item) : ItemDict :=
  { name := it.name
    category := it.category
    quantity := it.quantity
    purchase_price := it.purchase_price
    sale_price := it.sale_price
    margin := it.margin
    barcode := it.barcode }

/-- One step of `Inventory.load`: each stored dict is fed back through the
`Item` constructor (`sale_price` is present in every saved dict, so the
constructor takes it verbatim and never recomputes it). -/
def item_of_dict (d : ItemDict) : Item :=
  mkItem d.name d.category d.quantity d.purchase_price (some d.sale_price)
    d.margin d.barcode

/-- `Inventory.save`: the snapshot is `[it.to_dict() for it in self.items]`. -/
def save (items : List Item) : List ItemDict := items.map Item.to_dict

/-- `Inventory.load`: rebuild every `Item` from its stored dict. -/
def load (ds : List ItemDict) : List Item := ds.map item_of_dict

/-- Python string `.lower()`, restricted to the ASCII case mapping of
`Char.toLower` (all identifiers exercised here are ASCII). -/
def pyLower (s : String) : String := String.mk (s.toList.map Char.toLower)

/-- Truthiness of the optional `barcode` argument (`if barcode:` /
`if not barcode:` in `add_item`): a string is truthy iff non-empty. -/
def bcTruthy : Option String → Bool
  | some s => s != ""
  | none => false

/-- Find the first list element satisfying `p`, replace it by `f` of it, and
return the updated list together with the updated element.  This models the
Python pattern `it = find_...(…); it.field = …` (in-place mutation of the
first match found by `find_by_barcode` / `find_by_name`). -/
def mergeFirst (p : Item → Bool) (f : Item → Item) :
    List Item → Option (List Item × Item)
  | [] => none
  | it :: rest =>
    if p it then some (f it :: rest, f it)
    else
      match mergeFirst p f rest with
      | some (l, r) => some (it :: l, r)
      | none => none

/-- `if purchase_price:` of `add_item`: a nonzero (truthy) incoming purchase
price overwrites the stored one, a zero one is ignored. -/
def mergePurchase (purchase_price : ℚ) (it : Item) : Item :=
  if purchase_price ≠ 0 then { it with purchase_price := purchase_price }
  else it

/-- The `sale_price` update of `add_item`'s merge path: an explicit sale
price is taken verbatim; otherwise `margin` is set to the incoming margin
and `sale_price` is recomputed from the current purchase price. -/
def mergeSale (sale_price : Option ℚ) (margin : ℚ) (it : Item) : Item :=
  match sale_price with
  | some v => { it with sale_price := v }
  | none =>
    { it with
      margin := margin
      sale_price := round2 (it.purchase_price * (1 + margin)) }

/-- The mutation applied to an existing `Item` matched inside `add_item`
(both the barcode branch and the name branch run this same code, in source
order): `quantity += int(quantity)`; `if purchase_price:` overwrite it;
then the `sale_price` / `margin` update. -/
def updateMerge (quantity : Int) (purchase_price : ℚ) (sale_price : Option ℚ)
    (margin : ℚ) (it : Item) : Item :=
  mergeSale sale_price margin
    (mergePurchase purchase_price { it with quantity := it.quantity + quantity })

/-- `Inventory.add_item` of `main.py` (the reconciliation operation).
Control flow of the source: when `barcode` is truthy, look up by exact
barcode; on a hit, merge and return.  When `barcode` is falsy, look up by
case-insensitive name; on a hit, merge and return.  Otherwise construct a
new `Item` and append it.  (When a truthy barcode misses, the `if not
barcode:` guard skips the name lookup and a new `Item` is created.) -/
def add_item (items : List Item) (name : String) (category : String)
    (quantity : Int) (barcode : Option String) (purchase_price : ℚ)
    (sale_price : Option ℚ) (margin : ℚ) : List Item × Item :=
  let f := updateMerge quantity purchase_price sale_price margin
  if bcTruthy barcode then
    match mergeFirst (fun it => it.barcode == barcode) f items with
    | some (l, r) => (l, r)
    | none =>
      let it := mkItem name category quantity purchase_price sale_price
        margin barcode
      (items ++ [it], it)
  else
    match mergeFirst (fun it => pyLower it.name == pyLower name) f items with
    | some (l, r) => (l, r)
    | none =>
      let it := mkItem name category quantity purchase_price sale_price
        margin barcode
      (items ++ [it], it)

/-- The keyword arguments accepted by `Inventory.edit_item` (`None` / absent
keyword both leave the field alone, modelled together as `none`). -/
structure ItemUpdate where
  name : Option String := none
  category : Option String := none
  quantity : Option Int := none
  purchase_price : Option ℚ := none
  margin : Option ℚ := none
  sale_price : Option ℚ := none
  barcode : Option String := none
deriving Repr, DecidableEq

def updName (u : ItemUpdate) (it : Item) : Item :=
  match u.name with
  | some v => { it with name := v }
  | none => it

def updCategory (u : ItemUpdate) (it : Item) : Item :=
  match u.category with
  | some v => { it with category := v }
  | none => it

def updQuantity (u : ItemUpdate) (it : Item) : Item :=
  match u.quantity with
  | some v => { it with quantity := v }
  | none => it

def updPurchase (u : ItemUpdate) (it : Item) : Item :=
  match u.purchase_price with
  | some v => { it with purchase_price := v }
  | none => it

/-- `edit_item`: updating `margin` also recomputes `sale_price` from the
(possibly just updated) `purchase_price`. -/
def updMargin (u : ItemUpdate) (it : Item) : Item :=
  match u.margin with
  | some v =>
    { it with margin := v, sale_price := round2 (it.purchase_price * (1 + v)) }
  | none => it

def updSale (u : ItemUpdate) (it : Item) : Item :=
  match u.sale_price with
  | some v => { it with sale_price := v }
  | none => it

def updBarcode (u : ItemUpdate) (it : Item) : Item :=
  match u.barcode with
  | some v => { it with barcode := some v }
  | none => it

/-- The field updates of `edit_item`, applied in source order: name,
category, quantity, purchase_price, margin (recomputing sale_price),
sale_price (explicit value wins over the margin-derived one), barcode. -/
def applyUpdate (u : ItemUpdate) (it : Item) : Item :=
  updBarcode u (updSale u (updMargin u (updPurchase u
    (updQuantity u (updCategory u (updName u it))))))

/-- `Inventory.edit_item`: `find_by_barcode(key) or find_by_name(key)`,
then apply the given updates to that Item; `(items, none)` when not found. -/
def edit_item (items : List Item) (key : String) (u : ItemUpdate) :
    List Item × Option Item :=
  match mergeFirst (fun it => it.barcode == some key) (applyUpdate u) items with
  | some (l, r) => (l, some r)
  | none =>
    match mergeFirst (fun it => pyLower it.name == pyLower key)
        (applyUpdate u) items with
    | some (l, r) => (l, some r)
    | none => (items, none)

/-- `Inventory.reduce_stock_by_barcode`: strict barcode lookup (no name
fallback); on a hit `quantity = max(0, quantity - int(qty))`; `(items, none)`
when no Item carries the barcode (the catalog is returned unchanged). -/
def reduce_stock_by_barcode (items : List Item) (barcode : String)
    (qty : Int) : List Item × Option Item :=
  match mergeFirst (fun it => it.barcode == some barcode)
      (fun it => { it with quantity := max 0 (it.quantity - qty) }) items with
  | some (l, r) => (l, some r)
  | none => (items, none)

/-! ### Invoice XML import (`Inventory.import_invoice_xml`)

The parsed XML document of `xml.etree.ElementTree` is modelled by `Xml`:
an element with a tag, optional text content, and a child list.  Attribute
values and tail text are never read by `main.py` and are omitted. -/

inductive Xml where
  | elem (tag : String) (text : Option String) (children : List Xml)

def Xml.tag : Xml → String
  | .elem t _ _ => t

def Xml.text : Xml → Option String
  | .elem _ x _ => x

def Xml.children : Xml → List Xml
  | .elem _ _ c => c

/-- `find('.//Tag')` over a child list: first descendant with the tag, in
document (preorder) order. -/
def findDescList (tag : String) : List Xml → Option Xml
  | [] => none
  | Xml.elem t x cs :: rest =>
    if t = tag then some (Xml.elem t x cs)
    else
      match findDescList tag cs with
      | some r => some r
      | none => findDescList tag rest

/-- `node.find('.//Tag')` of ElementTree: first proper descendant of `node`
carrying the tag (the node itself is excluded by the `//` axis). -/
def findDesc (tag : String) (x : Xml) : Option Xml :=
  findDescList tag x.children

/-- `findall('.//Tag')` over a child list, in document order. -/
def findAllDescList (tag : String) : List Xml → List Xml
  | [] => []
  | Xml.elem t x cs :: rest =>
    (if t = tag then [Xml.elem t x cs] else []) ++
      findAllDescList tag cs ++ findAllDescList tag rest

/-- `node.findall('.//Tag')` of ElementTree. -/
def findAllDesc (tag : String) (x : Xml) : List Xml :=
  findAllDescList tag x.children

/-- `node.findtext('Tag')` of ElementTree (simple tag path): looks at direct
children only; returns the text of the first match (empty string when the
element has no text), and `none` when no child carries the tag. -/
def findtext (x : Xml) (tag : String) : Option String :=
  match x.children.find? (fun c => c.tag == tag) with
  | some c => some (c.text.getD "")
  | none => none

/-- Python `a or d` for an optional/empty string `a` and a string default:
the empty string and `None` both fall through to the default. -/
def pyOr (a : Option String) (d : String) : String :=
  match a with
  | some s => if s = "" then d else s
  | none => d

/-- Python `str.strip()`: drop leading and trailing whitespace. -/
def pyStrip (s : String) : String :=
  String.mk
    (((s.toList.dropWhile Char.isWhitespace).reverse.dropWhile
      Char.isWhitespace).reverse)

/-- Python `.replace(',', '.')` (single-character pattern): character map. -/
def replaceCommaDot (s : String) : String :=
  String.mk (s.toList.map (fun c => if c = ',' then '.' else c))

def digitsToNat (cs : List Char) : Nat :=
  cs.foldl (fun a c => a * 10 + (c.toNat - 48)) 0

/-- A scanned finite decimal literal `sgn * mant / 10^scale * 10^expo`. -/
structure DecLit where
  sgn : Int
  mant : Nat
  scale : Nat
  expo : Int
deriving Repr, DecidableEq

/-- Exponent suffix of a decimal literal: `[+-]? digits`, end of string. -/
def pyExpSuffix (sgn : Int) (mant scale : Nat) (r : List Char) :
    Option DecLit :=
  let es : Int × List Char :=
    match r with
    | '+' :: t => (1, t)
    | '-' :: t => (-1, t)
    | t => (1, t)
  let ed := es.2.takeWhile Char.isDigit
  let r2 := es.2.dropWhile Char.isDigit
  if ed.isEmpty ∨ ¬ r2.isEmpty then none
  else some ⟨sgn, mant, scale, es.1 * (digitsToNat ed : Int)⟩

/-- Scanner for a finite decimal literal, the common grammar of Python's
`Decimal(text)` and `float(text)` on the already-stripped,
comma-substituted texts fed to them by `import_invoice_xml`:
`[+-]? (digits [. digits?] | . digits) ([eE] [+-]? digits)?`.
Non-finite literals (`inf`, `nan`) and underscore separators are modelled
as parse failures; no invoice field exercises them. -/
def pyDecimalScan (s : String) : Option DecLit :=
  let cs := s.toList
  let signed : Int × List Char :=
    match cs with
    | '+' :: r => (1, r)
    | '-' :: r => (-1, r)
    | r => (1, r)
  let ip := signed.2.takeWhile Char.isDigit
  let cs2 := signed.2.dropWhile Char.isDigit
  let fracRest : List Char × List Char :=
    match cs2 with
    | '.' :: r => (r.takeWhile Char.isDigit, r.dropWhile Char.isDigit)
    | r => ([], r)
  let fp := fracRest.1
  if ip.isEmpty ∧ fp.isEmpty then none
  else
    let mant := digitsToNat ip * 10 ^ fp.length + digitsToNat fp
    match fracRest.2 with
    | [] => some ⟨signed.1, mant, fp.length, 0⟩
    | 'e' :: r => pyExpSuffix signed.1 mant fp.length r
    | 'E' :: r => pyExpSuffix signed.1 mant fp.length r
    | _ => none

/-- The rational value of a scanned decimal literal. -/
def DecLit.toRat (d : DecLit) : ℚ :=
  mkRat (d.sgn * (d.mant : Int) * ((10 ^ d.expo.toNat : ℕ) : ℤ))
    (10 ^ d.scale * 10 ^ (-d.expo).toNat)

/-- The numeric value of a decimal-literal text, or `none` on bad syntax. -/
def pyDecimalParse (s : String) : Option ℚ :=
  (pyDecimalScan s).map DecLit.toRat

/-- Python `int(...)` truncation of an exact rational toward zero
(`int(Decimal(t))` and `int(float(t))` both truncate toward zero). -/
def ratTruncToInt (q : ℚ) : Int := Int.tdiv q.num (q.den : Int)

/-- Quantity normalization of `import_invoice_xml`:
`qty_text = li.findtext('InvoiceQuantity') or '0'`, then
`int(Decimal(qty_text.strip().replace(',', '.')))` with an
`int(float(...))` fallback on the same text (covered by the same literal
grammar here) and default `0` on total failure. -/
def normalizeQty (raw : Option String) : Int :=
  let t := pyOr raw "0"
  match pyDecimalParse (replaceCommaDot (pyStrip t)) with
  | some q => ratTruncToInt q
  | none => 0

/-- Unit-price normalization of `import_invoice_xml`:
`price_text = li.findtext('InvoiceUnitNetPrice') or '0'`, then
`float(Decimal(price_text.strip().replace(',', '.')))` with a `float(...)`
fallback on the same text and default `0.0` on total failure. -/
def normalizePrice (raw : Option String) : ℚ :=
  let t := pyOr raw "0"
  match pyDecimalParse (replaceCommaDot (pyStrip t)) with
  | some q => q
  | none => 0

/-- `li = line.find('.//Line-Item') or line`.  ElementTree elements are
falsy when they have no children, so a childless `Line-Item` node also
falls back to the `Line` node itself. -/
def lineItemNode (line : Xml) : Xml :=
  match findDesc "Line-Item" line with
  | some e => if e.children.isEmpty then line else e
  | none => line

/-- `ean = (li.findtext('EAN') or li.findtext('ean') or '').strip() or None`. -/
def extractEan (li : Xml) : Option String :=
  let s := pyStrip (pyOr (findtext li "EAN") (pyOr (findtext li "ean") ""))
  if s = "" then none else some s

/-- `name = (li.findtext('ItemDescription') or … ) or 'Brak nazwy'` followed
by `.strip()` (the source repeats the identical `ItemDescription` lookup
three times; one lookup is semantically the same). -/
def extractName (li : Xml) : String :=
  pyStrip (pyOr (findtext li "ItemDescription") "Brak nazwy")

/-- `Inventory.import_invoice_xml` on an already-parsed document: locate the
line-items section as `root.find('.//Invoice-Lines')` with fallback
`root.find('.//InvoiceLines')`; if neither exists raise
`ValueError("Nie znaleziono sekcji Invoice-Lines w pliku XML")` (modelled as
`Except.error`, the catalog component returned untouched); otherwise feed
every `Line` descendant through extraction and `add_item`, counting lines. -/
def import_invoice_xml (items : List Item) (root : Xml) :
    List Item × Except String Nat :=
  match
    (match findDesc "Invoice-Lines" root with
     | some p => some p
     | none => findDesc "InvoiceLines" root) with
  | none => (items, Except.error "Nie znaleziono sekcji Invoice-Lines w pliku XML")
  | some linesParent =>
    let step := fun (acc : List Item × Nat) (line : Xml) =>
      let li := lineItemNode line
      let ean := extractEan li
      let name := extractName li
      let qty := normalizeQty (findtext li "InvoiceQuantity")
      let price := normalizePrice (findtext li "InvoiceUnitNetPrice")
      ((add_item acc.1 name "akcesorium" qty ean price none DEFAULT_MARGIN).1,
        acc.2 + 1)
    let r := (findAllDesc "Line" linesParent).foldl step (items, 0)
    (r.1, Except.ok r.2)

/-- Decidable statement that every quantity in the catalog is non-negative. -/
def allQtyNonneg (items : List Item) : Bool :=
  items.all (fun it => decide (0 ≤ it.quantity))

/-- "No two Items share a non-null barcode": the present barcodes are
pairwise distinct. -/
def barcodeUnique (items : List Item) : Prop :=
  (items.filterMap Item.barcode).Nodup

instance (items : List Item) : Decidable (barcodeUnique items) :=
  inferInstanceAs (Decidable (List.Nodup _))

/-! ### Helper lemmas -/

theorem mergePurchase_name (pp : ℚ) (it : Item) :
    (mergePurchase pp it).name = it.name := by
  unfold mergePurchase; split <;> rfl

theorem mergePurchase_category (pp : ℚ) (it : Item) :
    (mergePurchase pp it).category = it.category := by
  unfold mergePurchase; split <;> rfl

theorem mergePurchase_barcode (pp : ℚ) (it : Item) :
    (mergePurchase pp it).barcode = it.barcode := by
  unfold mergePurchase; split <;> rfl

theorem mergePurchase_quantity (pp : ℚ) (it : Item) :
    (mergePurchase pp it).quantity = it.quantity := by
  unfold mergePurchase; split <;> rfl

theorem mergePurchase_zero (it : Item) : mergePurchase 0 it = it := by
  simp [mergePurchase]

theorem mergeSale_name (sp : Option ℚ) (m : ℚ) (it : Item) :
    (mergeSale sp m it).name = it.name := by
  cases sp <;> rfl

theorem mergeSale_category (sp : Option ℚ) (m : ℚ) (it : Item) :
    (mergeSale sp m it).category = it.category := by
  cases sp <;> rfl

theorem mergeSale_barcode (sp : Option ℚ) (m : ℚ) (it : Item) :
    (mergeSale sp m it).barcode = it.barcode := by
  cases sp <;> rfl

theorem mergeSale_quantity (sp : Option ℚ) (m : ℚ) (it : Item) :
    (mergeSale sp m it).quantity = it.quantity := by
  cases sp <;> rfl

theorem mergeSale_purchase (sp : Option ℚ) (m : ℚ) (it : Item) :
    (mergeSale sp m it).purchase_price = it.purchase_price := by
  cases sp <;> rfl

theorem updateMerge_quantity (q : Int) (pp : ℚ) (sp : Option ℚ) (m : ℚ)
    (it : Item) : (updateMerge q pp sp m it).quantity = it.quantity + q := by
  unfold updateMerge
  rw [mergeSale_quantity, mergePurchase_quantity]

theorem updateMerge_name (q : Int) (pp : ℚ) (sp : Option ℚ) (m : ℚ)
    (it : Item) : (updateMerge q pp sp m it).name = it.name := by
  unfold updateMerge
  rw [mergeSale_name, mergePurchase_name]

theorem updateMerge_category (q : Int) (pp : ℚ) (sp : Option ℚ) (m : ℚ)
    (it : Item) : (updateMerge q pp sp m it).category = it.category := by
  unfold updateMerge
  rw [mergeSale_category, mergePurchase_category]

theorem updateMerge_barcode (q : Int) (pp : ℚ) (sp : Option ℚ) (m : ℚ)
    (it : Item) : (updateMerge q pp sp m it).barcode = it.barcode := by
  unfold updateMerge
  rw [mergeSale_barcode, mergePurchase_barcode]

/-- With a zero incoming purchase price the stored purchase price survives a
merge untouched. -/
theorem updateMerge_purchase_zero (q : Int) (sp : Option ℚ) (m : ℚ)
    (it : Item) :
    (updateMerge q 0 sp m it).purchase_price = it.purchase_price := by
  unfold updateMerge
  rw [mergeSale_purchase, mergePurchase_zero]

/-- With a zero incoming purchase price and no explicit sale price, the merge
recomputes `sale_price` from the stored purchase price and the incoming
margin. -/
theorem updateMerge_sale_zero_none (q : Int) (m : ℚ) (it : Item) :
    (updateMerge q 0 none m it).sale_price
      = round2 (it.purchase_price * (1 + m)) := by
  unfold updateMerge
  rw [mergePurchase_zero]
  rfl

theorem mergeFirst_none_of_forall (p : Item → Bool) (f : Item → Item) :
    ∀ l : List Item, (∀ it ∈ l, p it = false) → mergeFirst p f l = none := by
  intro l h
  induction l with
  | nil => rfl
  | cons it rest ih =>
    have hit : p it = false := h it (by simp)
    have hrest : ∀ x ∈ rest, p x = false := fun x hx => h x (by simp [hx])
    simp [mergeFirst, hit, ih hrest]

theorem forall_of_mergeFirst_none (p : Item → Bool) (f : Item → Item) :
    ∀ l : List Item, mergeFirst p f l = none → ∀ it ∈ l, p it = false := by
  intro l
  induction l with
  | nil => intro _ it hit; simp at hit
  | cons a rest ih =>
    intro h it hit
    by_cases hp : p a = true
    · simp [mergeFirst, hp] at h
    · rw [show mergeFirst p f (a :: rest)
          = match mergeFirst p f rest with
            | some (l, r) => some (a :: l, r)
            | none => none from by
        simp [mergeFirst, hp]] at h
      cases hm : mergeFirst p f rest with
      | none =>
        rcases List.mem_cons.mp hit with rfl | hmem
        · exact Bool.not_eq_true _ ▸ (by simpa using hp)
        · exact ih hm it hmem
      | some pr => rw [hm] at h; cases h

theorem mergeFirst_append_match (p : Item → Bool) (f : Item → Item)
    (pre : List Item) (it0 : Item) (post : List Item)
    (hpre : ∀ it ∈ pre, p it = false) (h0 : p it0 = true) :
    mergeFirst p f (pre ++ it0 :: post)
      = some (pre ++ f it0 :: post, f it0) := by
  induction pre with
  | nil => simp [mergeFirst, h0]
  | cons a pre ih =>
    have ha : p a = false := hpre a (by simp)
    have hrest : ∀ it ∈ pre, p it = false := fun x hx => hpre x (by simp [hx])
    simp [mergeFirst, ha, ih hrest]

theorem mergeFirst_map_eq {α : Type} (p : Item → Bool) (f : Item → Item)
    (proj : Item → α) (hf : ∀ it, proj (f it) = proj it) :
    ∀ (l l' : List Item) (r : Item),
      mergeFirst p f l = some (l', r) → l'.map proj = l.map proj := by
  intro l
  induction l with
  | nil => intro l' r h; simp [mergeFirst] at h
  | cons it rest ih =>
    intro l' r h
    by_cases hp : p it = true
    · simp only [mergeFirst, hp, if_true, Option.some.injEq, Prod.mk.injEq] at h
      obtain ⟨h1, _⟩ := h
      subst h1
      simp [hf]
    · simp only [mergeFirst, hp, if_false, Bool.false_eq_true] at h
      cases hm : mergeFirst p f rest with
      | none => rw [hm] at h; cases h
      | some pr =>
        obtain ⟨l2, r2⟩ := pr
        rw [hm] at h
        simp only [Option.some.injEq, Prod.mk.injEq] at h
        obtain ⟨h1, _⟩ := h
        subst h1
        simp [ih l2 r2 hm]

theorem mergeFirst_all (p : Item → Bool) (f : Item → Item) (chk : Item → Bool)
    (hf : ∀ it, chk it = true → chk (f it) = true) :
    ∀ (l l' : List Item) (r : Item),
      mergeFirst p f l = some (l', r) → l.all chk = true → l'.all chk = true := by
  intro l
  induction l with
  | nil => intro l' r h; simp [mergeFirst] at h
  | cons it rest ih =>
    intro l' r h hall
    simp only [List.all_cons, Bool.and_eq_true] at hall
    by_cases hp : p it = true
    · simp only [mergeFirst, hp, if_true, Option.some.injEq, Prod.mk.injEq] at h
      obtain ⟨h1, _⟩ := h
      subst h1
      simp [hf it hall.1, hall.2]
    · simp only [mergeFirst, hp, if_false, Bool.false_eq_true] at h
      cases hm : mergeFirst p f rest with
      | none => rw [hm] at h; cases h
      | some pr =>
        obtain ⟨l2, r2⟩ := pr
        rw [hm] at h
        simp only [Option.some.injEq, Prod.mk.injEq] at h
        obtain ⟨h1, _⟩ := h
        subst h1
        simp [hall.1, ih l2 r2 hm hall.2]

theorem filterMap_barcode_congr (l l' : List Item)
    (h : l.map Item.barcode = l'.map Item.barcode) :
    l.filterMap Item.barcode = l'.filterMap Item.barcode := by
  have h1 : List.filterMap id (l.map Item.barcode)
      = List.filterMap id (l'.map Item.barcode) := by rw [h]
  simpa [List.filterMap_map] using h1

theorem bcTruthy_some {b : String} (hb : b ≠ "") : bcTruthy (some b) = true := by
  simp [bcTruthy, hb]

theorem add_item_truthy_merge {items : List Item} {nm ct : String} {q : Int}
    {bc : Option String} {pp : ℚ} {sp : Option ℚ} {m : ℚ} {l : List Item}
    {r : Item} (hb : bcTruthy bc = true)
    (hm : mergeFirst (fun it => it.barcode == bc) (updateMerge q pp sp m) items
      = some (l, r)) :
    add_item items nm ct q bc pp sp m = (l, r) := by
  simp [add_item, hb, hm]

theorem add_item_truthy_miss {items : List Item} {nm ct : String} {q : Int}
    {bc : Option String} {pp : ℚ} {sp : Option ℚ} {m : ℚ}
    (hb : bcTruthy bc = true)
    (hm : mergeFirst (fun it => it.barcode == bc) (updateMerge q pp sp m) items
      = none) :
    add_item items nm ct q bc pp sp m
      = (items ++ [mkItem nm ct q pp sp m bc], mkItem nm ct q pp sp m bc) := by
  simp [add_item, hb, hm]

theorem add_item_falsy_merge {items : List Item} {nm ct : String} {q : Int}
    {bc : Option String} {pp : ℚ} {sp : Option ℚ} {m : ℚ} {l : List Item}
    {r : Item} (hb : bcTruthy bc = false)
    (hm : mergeFirst (fun it => pyLower it.name == pyLower nm)
      (updateMerge q pp sp m) items = some (l, r)) :
    add_item items nm ct q bc pp sp m = (l, r) := by
  simp [add_item, hb, hm]

theorem add_item_falsy_miss {items : List Item} {nm ct : String} {q : Int}
    {bc : Option String} {pp : ℚ} {sp : Option ℚ} {m : ℚ}
    (hb : bcTruthy bc = false)
    (hm : mergeFirst (fun it => pyLower it.name == pyLower nm)
      (updateMerge q pp sp m) items = none) :
    add_item items nm ct q bc pp sp m
      = (items ++ [mkItem nm ct q pp sp m bc], mkItem nm ct q pp sp m bc) := by
  simp [add_item, hb, hm]

theorem updName_quantity (u : ItemUpdate) (it : Item) :
    (updName u it).quantity = it.quantity := by
  cases h : u.name <;> simp [updName, h]

theorem updCategory_quantity (u : ItemUpdate) (it : Item) :
    (updCategory u it).quantity = it.quantity := by
  cases h : u.category <;> simp [updCategory, h]

theorem updQuantity_quantity (u : ItemUpdate) (it : Item) :
    (updQuantity u it).quantity = u.quantity.getD it.quantity := by
  cases h : u.quantity <;> simp [updQuantity, h]

theorem updPurchase_quantity (u : ItemUpdate) (it : Item) :
    (updPurchase u it).quantity = it.quantity := by
  cases h : u.purchase_price <;> simp [updPurchase, h]

theorem updMargin_quantity (u : ItemUpdate) (it : Item) :
    (updMargin u it).quantity = it.quantity := by
  cases h : u.margin <;> simp [updMargin, h]

theorem updSale_quantity (u : ItemUpdate) (it : Item) :
    (updSale u it).quantity = it.quantity := by
  cases h : u.sale_price <;> simp [updSale, h]

theorem updBarcode_quantity (u : ItemUpdate) (it : Item) :
    (updBarcode u it).quantity = it.quantity := by
  cases h : u.barcode <;> simp [updBarcode, h]

theorem applyUpdate_quantity (u : ItemUpdate) (it : Item) :
    (applyUpdate u it).quantity = u.quantity.getD it.quantity := by
  unfold applyUpdate
  rw [updBarcode_quantity, updSale_quantity, updMargin_quantity,
    updPurchase_quantity, updQuantity_quantity, updCategory_quantity,
    updName_quantity]

/-! ### Claims -/

/-- C4: `reduce_stock_by_barcode` looks up strictly by exact barcode match:
when no Item carries the barcode it returns the not-found signal with the
catalog unchanged; when the first Item carrying it is `it0`, it replaces
`it0`'s quantity by `max 0 (quantity - qty)` (never negative) and returns
the updated Item. -/
theorem reduce_stock_clamps_and_is_strict :
    (∀ (items : List Item) (b : String) (q : Int),
      (∀ it ∈ items, it.barcode ≠ some b) →
      reduce_stock_by_barcode items b q = (items, none))
    ∧ (∀ (pre : List Item) (it0 : Item) (post : List Item) (b : String)
        (q : Int), (∀ it ∈ pre, it.barcode ≠ some b) → it0.barcode = some b →
        reduce_stock_by_barcode (pre ++ it0 :: post) b q
          = (pre ++ { it0 with quantity := max 0 (it0.quantity - q) } :: post,
             some { it0 with quantity := max 0 (it0.quantity - q) })) := by
  constructor
  · intro items b q hno
    have hall : ∀ it ∈ items, (it.barcode == some b) = false := by
      intro it hit
      simpa using hno it hit
    unfold reduce_stock_by_barcode
    rw [mergeFirst_none_of_forall _ _ items hall]
  · intro pre it0 post b q hpre h0
    have hpre' : ∀ it ∈ pre, (it.barcode == some b) = false := by
      intro it hit
      simpa using hpre it hit
    have h0' : (it0.barcode == some b) = true := by simp [h0]
    unfold reduce_stock_by_barcode
    rw [mergeFirst_append_match _ _ pre it0 post hpre' h0']

theorem reduce_stock_clamps_and_is_strict_witness :
    reduce_stock_by_barcode
        [⟨"A", "akcesorium", 5, 10, 3/10, 13, some "111"⟩] "111" 8
      = ([⟨"A", "akcesorium", 0, 10, 3/10, 13, some "111"⟩],
         some ⟨"A", "akcesorium", 0, 10, 3/10, 13, some "111"⟩) := by
  have h := reduce_stock_clamps_and_is_strict.2 []
    ⟨"A", "akcesorium", 5, 10, 3/10, 13, some "111"⟩ [] "111" 8
    (by simp) rfl
  simp only [List.nil_append] at h
  rw [h]
  norm_num [max_def]

/-- C6: saving a catalog and loading it back reproduces every Item's fields
exactly; in particular a stored `sale_price` (margin-derived or explicit) is
taken verbatim by the `Item` constructor on load, never recomputed. -/
theorem save_load_round_trip : ∀ items : List Item, load (save items) = items := by
  intro items
  have h : item_of_dict ∘ Item.to_dict = id := funext fun it => rfl
  rw [load, save, List.map_map, h, List.map_id]

/-- C7: the numeric normalization of invoice fields maps `"12,50"` and
`"12.50"` to the same amount `12.50` (`mkRat 25 2`), and unparseable text
such as `"abc"` to the defaults `0` (quantity) and `0.0` (money), with no
failure escaping to the caller (the normalizers are total functions). -/
theorem numeric_normalization_examples :
    normalizePrice (some "12,50") = mkRat 25 2
    ∧ normalizePrice (some "12.50") = mkRat 25 2
    ∧ normalizePrice (some "abc") = 0
    ∧ normalizeQty (some "abc") = 0 := by
  refine ⟨?_, ?_, ?_, ?_⟩ <;> decide

/-- C8: when no explicit sale price is supplied, the sale price of a newly
reconciled Item is `round(purchase_price * (1 + margin), 2)`; in particular
purchase price `10.0` with margin `0.30` yields `13.00`. -/
theorem sale_price_formula :
    (∀ p m : ℚ,
      (add_item [] "X" "akcesorium" 0 none p none m).2.sale_price
        = round2 (p * (1 + m)))
    ∧ (add_item [] "X" "akcesorium" 0 none 10 none (3/10)).2.sale_price = 13 := by
  constructor
  · intro p m
    simp [add_item, bcTruthy, mergeFirst, mkItem]
  · simp only [add_item, bcTruthy, mergeFirst, mkItem]
    norm_num [round2, round_eq]

/-- C10: reconciliation never rewrites the `name`, `category` or `barcode`
of the Items already in the catalog: after any `add_item` call the existing
positions carry exactly their old values of those three fields (only
`quantity`, `purchase_price`, `margin`, `sale_price` can change). -/
theorem merge_preserves_identity_fields :
    ∀ (items : List Item) (nm ct : String) (q : Int) (bc : Option String)
      (pp : ℚ) (sp : Option ℚ) (m : ℚ),
      (((add_item items nm ct q bc pp sp m).1.take items.length).map
        (fun it => (it.name, it.category, it.barcode)))
      = items.map (fun it => (it.name, it.category, it.barcode)) := by
  intro items nm ct q bc pp sp m
  have hf : ∀ it : Item,
      ((updateMerge q pp sp m it).name, (updateMerge q pp sp m it).category,
        (updateMerge q pp sp m it).barcode)
        = (it.name, it.category, it.barcode) := by
    intro it
    simp [updateMerge_name, updateMerge_category, updateMerge_barcode]
  by_cases hb : bcTruthy bc = true
  · cases hm : mergeFirst (fun it => it.barcode == bc) (updateMerge q pp sp m)
        items with
    | none =>
      rw [add_item_truthy_miss hb hm]
      rw [List.take_left]
    | some pr =>
      obtain ⟨l, r⟩ := pr
      rw [add_item_truthy_merge hb hm]
      have hmap := mergeFirst_map_eq _ _
        (fun it : Item => (it.name, it.category, it.barcode)) hf items l r hm
      have hlen : l.length = items.length := by
        simpa using congrArg List.length hmap
      rw [← hlen, List.take_length, hmap]
  · have hb' : bcTruthy bc = false := by simpa using hb
    cases hm : mergeFirst (fun it => pyLower it.name == pyLower nm)
        (updateMerge q pp sp m) items with
    | none =>
      rw [add_item_falsy_miss hb' hm]
      rw [List.take_left]
    | some pr =>
      obtain ⟨l, r⟩ := pr
      rw [add_item_falsy_merge hb' hm]
      have hmap := mergeFirst_map_eq _ _
        (fun it : Item => (it.name, it.category, it.barcode)) hf items l r hm
      have hlen : l.length = items.length := by
        simpa using congrArg List.length hmap
      rw [← hlen, List.take_length, hmap]

/-- C1: in a catalog with no Item carrying the (non-empty) barcode `b`,
reconciling a line with barcode `b` and quantity `q1` and then another with
barcode `b` and quantity `q2` leaves exactly one Item carrying `b`, whose
quantity is `q1 + q2`: the second call finds the Item created by the first
one by exact barcode match instead of creating a second Item. -/
theorem import_same_barcode_twice (items : List Item) (b : String)
    (n1 c1 n2 c2 : String) (q1 q2 : Int) (p1 p2 m1 m2 : ℚ)
    (hb : b ≠ "") (hnone : ∀ it ∈ items, it.barcode ≠ some b)
    (hq1 : 0 ≤ q1) (hq2 : 0 ≤ q2) :
    ((add_item (add_item items n1 c1 q1 (some b) p1 none m1).1
        n2 c2 q2 (some b) p2 none m2).1.countP
      (fun it => it.barcode == some b)) = 1
    ∧ ((add_item (add_item items n1 c1 q1 (some b) p1 none m1).1
        n2 c2 q2 (some b) p2 none m2).1.all
      (fun it => it.barcode != some b || it.quantity == q1 + q2)) = true := by
  have ht := bcTruthy_some hb
  have hall : ∀ it ∈ items, (it.barcode == some b) = false := by
    intro it hit
    simpa using hnone it hit
  have hm1 : mergeFirst (fun it => it.barcode == some b)
      (updateMerge q1 p1 none m1) items = none :=
    mergeFirst_none_of_forall _ _ items hall
  rw [add_item_truthy_miss ht hm1]
  have hpred : ((mkItem n1 c1 q1 p1 none m1 (some b)).barcode == some b)
      = true := by simp [mkItem]
  have hm2 :=
    mergeFirst_append_match (fun it => it.barcode == some b)
      (updateMerge q2 p2 none m2) items (mkItem n1 c1 q1 p1 none m1 (some b))
      [] hall hpred
  rw [add_item_truthy_merge ht hm2]
  have hbar : ((updateMerge q2 p2 none m2
      (mkItem n1 c1 q1 p1 none m1 (some b))).barcode == some b) = true := by
    rw [updateMerge_barcode]
    exact hpred
  have hqty : (updateMerge q2 p2 none m2
      (mkItem n1 c1 q1 p1 none m1 (some b))).quantity = q1 + q2 := by
    rw [updateMerge_quantity]
    simp [mkItem]
  constructor
  · rw [List.countP_append]
    have hz : items.countP (fun it => it.barcode == some b) = 0 := by
      rw [List.countP_eq_zero]
      intro a ha
      simp [hall a ha]
    rw [hz]
    simp [List.countP_cons, hbar]
  · rw [List.all_append]
    have ha1 : items.all
        (fun it => it.barcode != some b || it.quantity == q1 + q2) = true := by
      rw [List.all_eq_true]
      intro it hit
      simp [bne, hall it hit]
    have ha2 : ([updateMerge q2 p2 none m2
        (mkItem n1 c1 q1 p1 none m1 (some b))] : List Item).all
        (fun it => it.barcode != some b || it.quantity == q1 + q2) = true := by
      simp [hqty]
    rw [ha1, ha2]
    rfl

theorem import_same_barcode_twice_witness :
    ((add_item (add_item [] "Widget" "akcesorium" 3 (some "111") 10 none
        DEFAULT_MARGIN).1 "Widget" "akcesorium" 2 (some "111") 0 none
        DEFAULT_MARGIN).1.countP
      (fun it => it.barcode == some "111")) = 1
    ∧ ((add_item (add_item [] "Widget" "akcesorium" 3 (some "111") 10 none
        DEFAULT_MARGIN).1 "Widget" "akcesorium" 2 (some "111") 0 none
        DEFAULT_MARGIN).1.all
      (fun it => it.barcode != some "111" || it.quantity == 3 + 2)) = true :=
  import_same_barcode_twice [] "111" "Widget" "akcesorium" "Widget"
    "akcesorium" 3 2 10 0 DEFAULT_MARGIN DEFAULT_MARGIN (by decide)
    (by simp) (by decide) (by decide)

/-- C2 counterexample: the claim "a zero incoming purchase price leaves
`purchase_price` and `sale_price` both unchanged" is false for
`sale_price`: re-reconciling barcode `"111"` with purchase price `0` and no
explicit sale price onto an Item whose stored sale price is the explicit
(non margin-derived) `99` overwrites that sale price with the recomputed
`round(10 * 1.3, 2) = 13`. -/
theorem zero_price_reimport_changes_sale_price :
    (add_item [⟨"A", "akcesorium", 3, 10, 3/10, 99, some "111"⟩]
        "A" "akcesorium" 2 (some "111") 0 none (3/10)).2.sale_price
      ≠ (99 : ℚ) := by
  have ht : bcTruthy (some "111") = true := by decide
  have hm :=
    mergeFirst_append_match (fun it => it.barcode == some "111")
      (updateMerge 2 0 none (3/10)) []
      ⟨"A", "akcesorium", 3, 10, 3/10, 99, some "111"⟩ [] (by simp) (by decide)
  simp only [List.nil_append] at hm
  rw [add_item_truthy_merge ht hm]
  rw [updateMerge_sale_zero_none]
  show round2 ((10 : ℚ) * (1 + 3/10)) ≠ 99
  norm_num [round2, round_eq]

/-- C2 (amended): when reconciliation merges into an existing Item with a
zero incoming purchase price and no explicit sale price, the stored
`purchase_price` is indeed unchanged, but `margin` is set to the incoming
margin and `sale_price` is recomputed as
`round(purchase_price * (1 + margin), 2)`; it therefore stays unchanged
only when it already equals that margin-derived value. Both match modes
(by barcode, and by case-insensitive name when no barcode is given) behave
this way. -/
theorem zero_price_merge_keeps_purchase_recomputes_sale :
    (∀ (pre : List Item) (it0 : Item) (post : List Item) (nm ct : String)
      (q : Int) (b : String) (m : ℚ),
      b ≠ "" → it0.barcode = some b → (∀ it ∈ pre, it.barcode ≠ some b) →
      ((add_item (pre ++ it0 :: post) nm ct q (some b) 0 none m).2.purchase_price
          = it0.purchase_price
      ∧ (add_item (pre ++ it0 :: post) nm ct q (some b) 0 none m).2.sale_price
          = round2 (it0.purchase_price * (1 + m))))
    ∧ (∀ (pre : List Item) (it0 : Item) (post : List Item) (nm ct : String)
      (q : Int) (m : ℚ),
      pyLower it0.name = pyLower nm →
      (∀ it ∈ pre, pyLower it.name ≠ pyLower nm) →
      ((add_item (pre ++ it0 :: post) nm ct q none 0 none m).2.purchase_price
          = it0.purchase_price
      ∧ (add_item (pre ++ it0 :: post) nm ct q none 0 none m).2.sale_price
          = round2 (it0.purchase_price * (1 + m)))) := by
  constructor
  · intro pre it0 post nm ct q b m hb h0 hpre
    have ht := bcTruthy_some hb
    have hpre' : ∀ it ∈ pre, (it.barcode == some b) = false := by
      intro it hit
      simpa using hpre it hit
    have h0' : (it0.barcode == some b) = true := by simp [h0]
    have hm :=
      mergeFirst_append_match (fun it => it.barcode == some b)
        (updateMerge q 0 none m) pre it0 post hpre' h0'
    rw [add_item_truthy_merge ht hm]
    exact ⟨updateMerge_purchase_zero q none m it0,
      updateMerge_sale_zero_none q m it0⟩
  · intro pre it0 post nm ct q m h0 hpre
    have hpre' : ∀ it ∈ pre, (pyLower it.name == pyLower nm) = false := by
      intro it hit
      simpa using hpre it hit
    have h0' : (pyLower it0.name == pyLower nm) = true := by simp [h0]
    have hm :=
      mergeFirst_append_match (fun it => pyLower it.name == pyLower nm)
        (updateMerge q 0 none m) pre it0 post hpre' h0'
    rw [add_item_falsy_merge (show bcTruthy none = false from rfl) hm]
    exact ⟨updateMerge_purchase_zero q none m it0,
      updateMerge_sale_zero_none q m it0⟩

theorem zero_price_merge_keeps_purchase_recomputes_sale_witness :
    ((add_item ([] ++ ⟨"Widget", "akcesorium", 3, mkRat 21 2, 3/10,
        mkRat 273 20, some "111"⟩ :: []) "Widget" "akcesorium" 2 (some "111")
        0 none (3/10)).2.purchase_price = mkRat 21 2)
    ∧ ((add_item ([] ++ ⟨"Widget", "akcesorium", 3, mkRat 21 2, 3/10,
        mkRat 273 20, some "111"⟩ :: []) "Widget" "akcesorium" 2 (some "111")
        0 none (3/10)).2.sale_price = round2 (mkRat 21 2 * (1 + 3/10))) :=
  zero_price_merge_keeps_purchase_recomputes_sale.1 []
    ⟨"Widget", "akcesorium", 3, mkRat 21 2, 3/10, mkRat 273 20, some "111"⟩
    [] "Widget" "akcesorium" 2 "111" (3/10) (by decide) rfl (by simp)

/-- C3 counterexample: the claim "no operation ever leaves a negative
quantity" is false: `add_item` applied to an empty catalog with the
incoming quantity `-3` creates an Item whose quantity is `-3 < 0` (the
code clamps at zero only in `reduce_stock_by_barcode`). -/
theorem negative_add_breaks_nonneg :
    allQtyNonneg (add_item [] "A" "akcesorium" (-3) none 0 none 0).1
      = false := by
  simp [add_item, bcTruthy, mergeFirst, mkItem, allQtyNonneg]

/-- C3 (amended): quantities stay non-negative provided the incoming
quantities are themselves non-negative: `add_item` with a non-negative
incoming quantity, `edit_item` whose quantity update (if any) is
non-negative, and `reduce_stock_by_barcode` unconditionally (its
`max 0 …` clamp), all preserve "every quantity in the catalog is ≥ 0".
With a negative incoming quantity `add_item`/`edit_item` do produce
negative stock. -/
theorem ops_preserve_nonneg_quantities :
    (∀ (items : List Item) (nm ct : String) (q : Int) (bc : Option String)
      (pp : ℚ) (sp : Option ℚ) (m : ℚ), allQtyNonneg items = true → 0 ≤ q →
      allQtyNonneg (add_item items nm ct q bc pp sp m).1 = true)
    ∧ (∀ (items : List Item) (key : String) (u : ItemUpdate),
      allQtyNonneg items = true → (∀ v, u.quantity = some v → 0 ≤ v) →
      allQtyNonneg (edit_item items key u).1 = true)
    ∧ (∀ (items : List Item) (b : String) (q : Int),
      allQtyNonneg items = true →
      allQtyNonneg (reduce_stock_by_barcode items b q).1 = true) := by
  refine ⟨?_, ?_, ?_⟩
  · intro items nm ct q bc pp sp m hall hq
    have hf : ∀ it : Item, (decide (0 ≤ it.quantity)) = true →
        (decide (0 ≤ (updateMerge q pp sp m it).quantity)) = true := by
      intro it h
      rw [updateMerge_quantity]
      simp only [decide_eq_true_eq] at h ⊢
      exact Int.add_nonneg h hq
    by_cases hb : bcTruthy bc = true
    · cases hm : mergeFirst (fun it => it.barcode == bc)
          (updateMerge q pp sp m) items with
      | none =>
        rw [add_item_truthy_miss hb hm]
        unfold allQtyNonneg at hall ⊢
        rw [List.all_append, hall]
        simpa [mkItem] using hq
      | some pr =>
        obtain ⟨l, r⟩ := pr
        rw [add_item_truthy_merge hb hm]
        exact mergeFirst_all _ _ _ hf items l r hm hall
    · have hb' : bcTruthy bc = false := by simpa using hb
      cases hm : mergeFirst (fun it => pyLower it.name == pyLower nm)
          (updateMerge q pp sp m) items with
      | none =>
        rw [add_item_falsy_miss hb' hm]
        unfold allQtyNonneg at hall ⊢
        rw [List.all_append, hall]
        simpa [mkItem] using hq
      | some pr =>
        obtain ⟨l, r⟩ := pr
        rw [add_item_falsy_merge hb' hm]
        exact mergeFirst_all _ _ _ hf items l r hm hall
  · intro items key u hall hv
    have hf : ∀ it : Item, (decide (0 ≤ it.quantity)) = true →
        (decide (0 ≤ (applyUpdate u it).quantity)) = true := by
      intro it h
      rw [applyUpdate_quantity]
      simp only [decide_eq_true_eq] at h ⊢
      cases hu : u.quantity with
      | none => simpa using h
      | some v => simpa using hv v hu
    unfold edit_item
    cases hm1 : mergeFirst (fun it => it.barcode == some key)
        (applyUpdate u) items with
    | some pr =>
      obtain ⟨l, r⟩ := pr
      exact mergeFirst_all _ _ _ hf items l r hm1 hall
    | none =>
      cases hm2 : mergeFirst (fun it => pyLower it.name == pyLower key)
          (applyUpdate u) items with
      | some pr =>
        obtain ⟨l, r⟩ := pr
        exact mergeFirst_all _ _ _ hf items l r hm2 hall
      | none => exact hall
  · intro items b q hall
    have hf : ∀ it : Item, (decide (0 ≤ it.quantity)) = true →
        (decide (0 ≤ (({ it with
          quantity := max 0 (it.quantity - q) } : Item)).quantity)) = true := by
      intro it _
      simp only [decide_eq_true_eq]
      exact le_max_left 0 _
    unfold reduce_stock_by_barcode
    cases hm : mergeFirst (fun it => it.barcode == some b)
        (fun it => { it with quantity := max 0 (it.quantity - q) }) items with
    | some pr =>
      obtain ⟨l, r⟩ := pr
      exact mergeFirst_all _ _ _ hf items l r hm hall
    | none => exact hall

theorem ops_preserve_nonneg_quantities_witness :
    allQtyNonneg (add_item [] "A" "akcesorium" 2 none 0 none
      DEFAULT_MARGIN).1 = true :=
  ops_preserve_nonneg_quantities.1 [] "A" "akcesorium" 2 none 0 none
    DEFAULT_MARGIN (by decide) (by decide)

/-- C5: when the parsed document has no `Invoice-Lines` descendant and no
`InvoiceLines` descendant either, `import_invoice_xml` fails with the
missing-section `ValueError` and the catalog is returned exactly as it was:
no line is reconciled. -/
theorem missing_section_aborts_import (items : List Item) (root : Xml)
    (h1 : findDesc "Invoice-Lines" root = none)
    (h2 : findDesc "InvoiceLines" root = none) :
    import_invoice_xml items root
      = (items,
         Except.error "Nie znaleziono sekcji Invoice-Lines w pliku XML") := by
  simp [import_invoice_xml, h1, h2]

theorem missing_section_aborts_import_witness :
    import_invoice_xml [] (Xml.elem "Document-Invoice" none [])
      = ([],
         Except.error "Nie znaleziono sekcji Invoice-Lines w pliku XML") :=
  missing_section_aborts_import [] (Xml.elem "Document-Invoice" none [])
    (by simp [findDesc, findDescList, Xml.children])
    (by simp [findDesc, findDescList, Xml.children])

/-- C9 counterexample: the claim "after every operation no two Items share
a non-null barcode" is false: `edit_item` assigns the requested barcode
with no uniqueness check, so editing the Item with barcode `"2"` to
barcode `"1"` leaves two Items both carrying barcode `"1"`. -/
theorem edit_creates_duplicate_barcode :
    ¬ barcodeUnique
      (edit_item [⟨"A", "akcesorium", 1, 10, 0, 13, some "1"⟩,
                  ⟨"B", "akcesorium", 1, 20, 0, 26, some "2"⟩] "2"
        { barcode := some "1" }).1 := by
  decide

/-- C9 (amended): reconciliation (`add_item`, with a barcode that is absent
or non-empty) and `reduce_stock_by_barcode` preserve the uniqueness of
present barcodes; `edit_item` is the exception, since it assigns a
requested barcode without checking for duplicates. -/
theorem add_and_reduce_preserve_barcode_uniqueness :
    (∀ (items : List Item) (nm ct : String) (q : Int) (bc : Option String)
      (pp : ℚ) (sp : Option ℚ) (m : ℚ),
      barcodeUnique items → bc ≠ some "" →
      barcodeUnique (add_item items nm ct q bc pp sp m).1)
    ∧ (∀ (items : List Item) (b : String) (q : Int),
      barcodeUnique items →
      barcodeUnique (reduce_stock_by_barcode items b q).1) := by
  constructor
  · intro items nm ct q bc pp sp m hu hbc
    by_cases hb : bcTruthy bc = true
    · cases hm : mergeFirst (fun it => it.barcode == bc)
          (updateMerge q pp sp m) items with
      | some pr =>
        obtain ⟨l, r⟩ := pr
        rw [add_item_truthy_merge hb hm]
        have hmap := mergeFirst_map_eq _ _ Item.barcode
          (fun it => updateMerge_barcode q pp sp m it) items l r hm
        unfold barcodeUnique at hu ⊢
        rw [filterMap_barcode_congr l items hmap]
        exact hu
      | none =>
        rw [add_item_truthy_miss hb hm]
        cases bc with
        | none => simp [bcTruthy] at hb
        | some b =>
          have hforall := forall_of_mergeFirst_none _ _ items hm
          unfold barcodeUnique at hu ⊢
          rw [List.filterMap_append]
          have hsingle : List.filterMap Item.barcode
              [mkItem nm ct q pp sp m (some b)] = [b] := by simp [mkItem]
          rw [hsingle, List.nodup_append]
          refine ⟨hu, by simp, ?_⟩
          intro a ha hmem
          have hab : a = b := by simpa using hmem
          rcases List.mem_filterMap.mp ha with ⟨it, hit, hbar⟩
          have hfalse := hforall it hit
          rw [hab] at hbar
          simp [hbar] at hfalse
    · have hb' : bcTruthy bc = false := by simpa using hb
      cases hm : mergeFirst (fun it => pyLower it.name == pyLower nm)
          (updateMerge q pp sp m) items with
      | some pr =>
        obtain ⟨l, r⟩ := pr
        rw [add_item_falsy_merge hb' hm]
        have hmap := mergeFirst_map_eq _ _ Item.barcode
          (fun it => updateMerge_barcode q pp sp m it) items l r hm
        unfold barcodeUnique at hu ⊢
        rw [filterMap_barcode_congr l items hmap]
        exact hu
      | none =>
        rw [add_item_falsy_miss hb' hm]
        cases bc with
        | some b =>
          have hb0 : b = "" := by simpa [bcTruthy] using hb'
          exact absurd (by rw [hb0]) hbc
        | none =>
          unfold barcodeUnique at hu ⊢
          rw [List.filterMap_append]
          have hempty : List.filterMap Item.barcode
              [mkItem nm ct q pp sp m none] = [] := by simp [mkItem]
          rw [hempty, List.append_nil]
          exact hu
  · intro items b q hu
    unfold reduce_stock_by_barcode
    cases hm : mergeFirst (fun it => it.barcode == some b)
        (fun it => { it with quantity := max 0 (it.quantity - q) }) items with
    | some pr =>
      obtain ⟨l, r⟩ := pr
      have hmap := mergeFirst_map_eq (fun it => it.barcode == some b)
        (fun it => { it with quantity := max 0 (it.quantity - q) })
        Item.barcode (fun it => rfl) items l r hm
      unfold barcodeUnique at hu ⊢
      rw [filterMap_barcode_congr l items hmap]
      exact hu
    | none => exact hu

theorem add_and_reduce_preserve_barcode_uniqueness_witness :
    barcodeUnique (add_item [] "A" "akcesorium" 1 (some "111") 0 none 0).1 :=
  add_and_reduce_preserve_barcode_uniqueness.1 [] "A" "akcesorium" 1
    (some "111") 0 none 0 (by decide) (by decide)

end Magazyn
